import Mathlib

/-!
Verification of the thread-reconstruction and message-synthesis engine of
gien (src/gien.py): a shallow embedding of the program's data model and
operations, followed by theorems settling the frozen claims.

Conventions of the embedding:
* Python strings become Lean `String`s; `"{}".format(n)` on an `int`
  becomes `Nat.repr`.
* The external `markdown` converter (library code, fallible) is a
  parameter of type `String → Option String`; `none` models the
  converter raising an exception.
* The external `md5(...).hexdigest()` (function `hexhex`) is a parameter
  of type `String → String`; no claim depends on the md5 algorithm
  itself, only on how its output is spliced into identifiers.
* `email.utils.formatdate` is modelled as a deterministic rendering of
  the timestamp (claims depend only on its functional dependence on the
  timestamp, never on the textual format).
* A MIME message (`MIMEMultipart` with headers set by keyword and parts
  attached by `attach`) becomes the `MimeMsg` structure below; exception
  flow in `render_message` becomes the `Option` branch.
-/

/-- Markdown converter type: the body text either converts to hypertext or
the converter raises (modelled as `none`). -/
def Markdown : Type := String → Option String

/-- Characters of a string with every underscore replaced by a dash;
models the Python `k.replace("_", "-")` applied to header keyword names. -/
def replaceUnderscoresChars : List Char → List Char
  | [] => []
  | c :: t => (if c = '_' then '-' else c) :: replaceUnderscoresChars t

/-- String form of `replaceUnderscoresChars`: Python `k.replace("_", "-")`. -/
def replace_underscores (s : String) : String :=
  ⟨replaceUnderscoresChars s.data⟩

/-- Substring test on character lists; models Python `haystack.find(needle) > -1`. -/
def containsSubstrChars (pat : List Char) : List Char → Bool
  | [] => pat.isEmpty
  | c :: t => pat.isPrefixOf (c :: t) || containsSubstrChars pat t

/-- Substring test on strings; models Python `s.find(pat) > -1`. -/
def str_find_has (s pat : String) : Bool :=
  containsSubstrChars pat.data s.data

/-- Suffix test; models Python `s.endswith(suf)`. -/
def str_endswith (s suf : String) : Bool :=
  List.isSuffixOf suf.data s.data

/-- All but the last `n` characters; models the Python slice `s[:-n]`. -/
def str_dropRight (s : String) (n : Nat) : String :=
  ⟨s.data.take (s.data.length - n)⟩

/-- Parsed command line before argparse defaulting: `none` means the
option did not occur on the command line; the three boolean flags are
`store_true` flags, so absence is simply `false`. -/
structure CmdLine where
  user : Option String
  password : Option String
  repository : Option String
  issues : Option String
  output : Option String
  labels : Bool
  archive_wiki : Bool
  archive_issues : Bool
  threads : Option Int
deriving Repr, DecidableEq

/-- Options after argparse defaulting (the `r` returned by `ap.parse_args()`). -/
structure Options where
  user : Option String
  password : Option String
  repository : String
  issues : String
  output : String
  labels : Bool
  archive_wiki : Bool
  archive_issues : Bool
  threads : Int
deriving Repr, DecidableEq

/-- Argparse defaulting, from the `ap.add_argument` calls in `get_options`:
`--repository` defaults to the string "2ion/gien", `--issues` to "all",
`--output` to "output.mbox", `--threads` to 2; `--user` and `--password`
default to `None`. -/
def parse_args (c : CmdLine) : Options :=
  { user := c.user
    password := c.password
    repository := c.repository.getD "2ion/gien"
    issues := c.issues.getD "all"
    output := c.output.getD "output.mbox"
    labels := c.labels
    archive_wiki := c.archive_wiki
    archive_issues := c.archive_issues
    threads := c.threads.getD 2 }

/-- Python truthiness of an optional string: `None` and the empty string
are falsy, every other string is truthy. -/
def py_truthy : Option String → Bool
  | none => false
  | some s => s != ""

/-- Outcome of `get_options`: either the parsed options or the `die`
diagnostic (which prints to stderr and exits with status 1). -/
def get_options (c : CmdLine) : Except String Options :=
  let r := parse_args c
  if py_truthy r.user && py_truthy r.password && (r.repository != "") then
    Except.ok r
  else
    Except.error "Missing option: --user, --password and --repository are required."

/-- Label record: only the `name` attribute is read by the program. -/
structure Label where
  name : String
deriving Repr, DecidableEq

/-- Comment record: the attributes of a Github issue comment read by the
program (`id`, `body`, `created_at.timestamp()`, `user.login`). -/
structure Comment where
  id : Nat
  body : String
  created_at : Int
  author : String
deriving Repr, DecidableEq

/-- Issue record: the attributes of a Github issue read by the program
(`id`, `title`, `body`, `created_at`, `user.login`, `closed_at`, `labels`). -/
structure Issue where
  id : Nat
  title : String
  body : String
  created_at : Int
  author : String
  closed_at : Option Int
  labels : List Label
deriving Repr, DecidableEq

/-- One element of the `data` list built by `fetch_data`: an issue
together with its ordered comment sequence. -/
structure IssueData where
  issue : Issue
  comments : List Comment
deriving Repr, DecidableEq

/-- Repository record: the attributes read by the program
(`full_name`, `name`). -/
structure Repo where
  full_name : String
  name : String
deriving Repr, DecidableEq

/-- Synthesized MIME message: the header list (in insertion order, with
keyword underscores already replaced by dashes) and the attached body
parts as (subtype, payload) pairs. -/
structure MimeMsg where
  headers : List (String × String)
  parts : List (String × String)
deriving Repr, DecidableEq, Inhabited

/-- Header lookup, modelling `msg["Header-Name"]` on the exact stored name. -/
def getHeader (m : MimeMsg) (k : String) : Option String :=
  m.headers.lookup k

/-- Message identifier for issue messages, from gien.py line 108:
the format string "<{}/issues/{}/{}@github.com>" applied to the
repository full name, the issue id and the comment id. -/
def h_message_id (repo : String) (issueid commentid : Nat) : String :=
  "<" ++ repo ++ "/issues/" ++ Nat.repr issueid ++ "/" ++ Nat.repr commentid ++ "@github.com>"

/-- From header, gien.py line 111: "{} <{}@noreply.github.com>" applied to
the author login twice. -/
def h_from (login : String) : String :=
  login ++ " <" ++ login ++ "@noreply.github.com>"

/-- Date header, gien.py line 114: `formatdate(obj.created_at.timestamp())`.
The textual format of `email.utils.formatdate` is irrelevant to every
claim; the embedding keeps only its deterministic dependence on the
timestamp. -/
def h_date (created_at : Int) : String :=
  "@" ++ toString created_at

/-- To header, gien.py line 120: "{} <{}@noreply.github.com>" applied to
the repository full name and short name. -/
def h_to (r : Repo) : String :=
  r.full_name ++ " <" ++ r.name ++ "@noreply.github.com>"

/-- Content renderer, gien.py lines 123-132. Headers are set first from
the keyword argument list (with underscore-to-dash keyword rewriting);
then, inside a try block, the hypertext part is attached first and the
plain-text part second, and a bare except swallows any failure: when the
markdown conversion raises, neither part has been attached yet, so the
message is returned with no body parts at all. -/
def render_message (md : Markdown) (body : String) (kwargs : List (String × String)) : MimeMsg :=
  { headers := kwargs.map (fun kv => (replace_underscores kv.fst, kv.snd))
    parts :=
      match md body with
      | some html => [("html", html), ("plain", body)]
      | none => [] }

/-- Common subject computed at gien.py lines 137-142: the issue title,
then (only when the labels option is on) one " [<label>]" suffix per
label and a " [CLOSED]" suffix when `closed_at` is truthy. -/
def make_subject (opts : Options) (i : Issue) : String :=
  let s := i.title
  if opts.labels then
    let s := i.labels.foldl (fun acc label => acc ++ " [" ++ label.name ++ "]") s
    if i.closed_at.isSome then s ++ " [CLOSED]" else s
  else s

/-- Root message of an issue thread, gien.py lines 147-152. -/
def issueRootMsg (md : Markdown) (opts : Options) (r : Repo) (o : IssueData) : MimeMsg :=
  render_message md o.issue.body
    [("Subject", make_subject opts o.issue),
     ("From", h_from o.issue.author),
     ("To", h_to r),
     ("Date", h_date o.issue.created_at),
     ("Message_ID", h_message_id r.full_name o.issue.id 0)]

/-- Reply message of an issue thread, gien.py lines 158-165, with
`common_root` read back from the root message's Message-ID header
exactly as the source does (`thread[-1]["Message-ID"]`). -/
def issueReplyMsg (md : Markdown) (opts : Options) (r : Repo) (o : IssueData) (comment : Comment) : MimeMsg :=
  let common_root := (getHeader (issueRootMsg md opts r o) "Message-ID").getD ""
  render_message md comment.body
    [("Subject", "Re: " ++ make_subject opts o.issue),
     ("From", h_from comment.author),
     ("To", h_to r),
     ("Date", h_date comment.created_at),
     ("Message_ID", h_message_id r.full_name o.issue.id comment.id),
     ("In_Reply_To", common_root),
     ("References", common_root)]

/-- Issue thread builder, gien.py lines 134-167: start the thread with the
root message, then append one reply message per comment, in comment order. -/
def make_thread (md : Markdown) (opts : Options) (r : Repo) (o : IssueData) : List MimeMsg :=
  let thread := [issueRootMsg md opts r o]
  o.comments.foldl (fun t comment => t ++ [issueReplyMsg md opts r o comment]) thread

/-- One directory visited by `os.walk`: its path and the file names it
contains (the subdirectory list is never read by `thread_wiki`). -/
structure WalkEntry where
  dir : String
  files : List String
deriving Repr, DecidableEq

/-- Root identifier of the wiki thread, gien.py line 172:
"{}@wiki".format(hexhex(repo.full_name)). The `hexhex` md5 digest is a
parameter of the embedding. -/
def wiki_root_msgid (hexhex : String → String) (repo : Repo) : String :=
  hexhex repo.full_name ++ "@wiki"

/-- Identifier of a non-root wiki message, gien.py line 191:
"{}@{}.wiki".format(hexhex(path), repo.name), where `path` is the full
walked path of the page file. -/
def wiki_reply_msgid (hexhex : String → String) (repo : Repo) (path : String) : String :=
  hexhex path ++ "@" ++ repo.name ++ ".wiki"

/-- Fixed wiki From address, gien.py line 170: the format string
"wiki@noreply.github.com" has no placeholder, so the `.format(...)` call
returns it unchanged. -/
def wiki_from : String :=
  "wiki@noreply.github.com"

/-- Wiki root message, gien.py lines 200-207: built for the first markup
page discovered, carrying the root identifier and no reply headers.
`now` models the argument-less `formatdate()` call (time of archival),
`contents` the `open(path).read()` of the walked tree. -/
def wiki_root_msg (hexhex : String → String) (md : Markdown) (repo : Repo) (now : String)
    (contents : String → String) (dir ff : String) : MimeMsg :=
  render_message md (contents (dir ++ "/" ++ ff))
    [("Subject", "[WIKI] " ++ str_dropRight ff 3),
     ("From", wiki_from),
     ("Message_ID", wiki_root_msgid hexhex repo),
     ("To", h_to repo),
     ("Date", now)]

/-- Wiki reply message, gien.py lines 190-199: built for every markup page
after the first, with In-Reply-To and References set to the root identifier. -/
def wiki_reply_msg (hexhex : String → String) (md : Markdown) (repo : Repo) (now : String)
    (contents : String → String) (dir ff : String) : MimeMsg :=
  render_message md (contents (dir ++ "/" ++ ff))
    [("Subject", "[WIKI] " ++ str_dropRight ff 3),
     ("From", wiki_from),
     ("Message_ID", wiki_reply_msgid hexhex repo (dir ++ "/" ++ ff)),
     ("To", h_to repo),
     ("In_Reply_To", wiki_root_msgid hexhex repo),
     ("References", wiki_root_msgid hexhex repo),
     ("Date", now)]

/-- Body of the inner file loop of `thread_wiki`, gien.py lines 182-208:
skip files not ending in ".md"; append a message for markup files — a
reply when the thread already has messages (`len(thread) > 0`), the root
otherwise. -/
def wiki_file_step (hexhex : String → String) (md : Markdown) (repo : Repo) (now : String)
    (contents : String → String) (dir : String) (thread : List MimeMsg) (ff : String) : List MimeMsg :=
  if str_endswith ff ".md" then
    thread ++ [if thread.length > 0 then
                 wiki_reply_msg hexhex md repo now contents dir ff
               else
                 wiki_root_msg hexhex md repo now contents dir ff]
  else thread

/-- Body of the outer directory loop of `thread_wiki`, gien.py lines
179-208: skip any directory whose path contains ".git", otherwise visit
its files in order. -/
def wiki_dir_step (hexhex : String → String) (md : Markdown) (repo : Repo) (now : String)
    (contents : String → String) (thread : List MimeMsg) (e : WalkEntry) : List MimeMsg :=
  if str_find_has e.dir ".git" then thread
  else e.files.foldl (wiki_file_step hexhex md repo now contents e.dir) thread

/-- Wiki thread builder, gien.py lines 169-209: walk the cloned tree in
the given order, skip every directory whose path contains ".git", visit
each file, keep those ending in ".md", and append a message per kept
file — the first kept file becomes the root, later ones replies. -/
def thread_wiki (hexhex : String → String) (md : Markdown) (repo : Repo) (now : String)
    (walk : List WalkEntry) (contents : String → String) : List MimeMsg :=
  walk.foldl (wiki_dir_step hexhex md repo now contents) []

/-- Markup pages discovered by the walk, as (directory, file name) pairs:
the files ending in ".md" of the directories whose path does not contain
".git", in walk order. `thread_wiki` emits exactly one message per element
of this list. -/
def wiki_md_pages (walk : List WalkEntry) : List (String × String) :=
  (walk.filter (fun e => !(str_find_has e.dir ".git"))).flatMap
    (fun e => (e.files.filter (fun ff => str_endswith ff ".md")).map (fun ff => (e.dir, ff)))

/-- Worker-pool result table: the pool executes the build tasks in an
arbitrary completion order (a list of input indices, possibly any
permutation the scheduler produces) and stores each result keyed by the
index of the input that produced it. The build function is pure, so the
stored value for slot i is determined by input i alone. -/
def poolResults (fn : α → β) (inputs : List α) (completionOrder : List Nat) : List (Nat × β) :=
  completionOrder.filterMap (fun i => (inputs.get? i).map (fun a => (i, fn a)))

/-- Model of `Executor.map` from gien.py lines 220-222: results are
yielded strictly in submission (input) order, each read from the result
table, regardless of the completion order in which workers finished. -/
def executor_map (fn : α → β) (inputs : List α) (completionOrder : List Nat) : List β :=
  (List.range inputs.length).filterMap
    (fun i => (poolResults fn inputs completionOrder).lookup i)

/-- Message sequence the archive writer appends for the issue phase,
gien.py lines 218-225: the threads yielded by the executor, flattened in
yield order (each thread's messages added in thread order). -/
def archive_issue_messages (md : Markdown) (opts : Options) (r : Repo)
    (data : List IssueData) (completionOrder : List Nat) : List MimeMsg :=
  (executor_map (make_thread md opts r) data completionOrder).flatten

/-- Externally visible effects of the run, in program order. -/
inductive Event where
  | networkFetch
  | storeOpen
  | storeFlush
deriving Repr, DecidableEq

/-- Effect trace and exit status of `main`, gien.py lines 211-235:
`get_options` runs first and `die` exits with status 1 before
`fetch_data` (the first network activity) and before `mbox(opts.output)`
(the first touch of the store file); otherwise the run fetches, opens
the store, appends and flushes (appends elided — they depend on the
fetched data, which no claim about this trace involves). -/
def main_trace (c : CmdLine) : List Event × Nat :=
  match get_options c with
  | Except.error _ => ([], 1)
  | Except.ok _ => ([Event.networkFetch, Event.storeOpen, Event.storeFlush], 0)

/-- Generic Python runtime error: the only failure the header helpers can
produce. The program defines no error class of its own — in particular
no MissingField and no InvalidIdentity class exists anywhere in gien.py. -/
inductive PyError where
  | attributeError
deriving Repr, DecidableEq

/-- Attribute-access model of `h_from`, gien.py lines 111-112: the source
reads `obj.user.login`; when the source object carries no user (`None`),
that access raises a plain AttributeError — the function neither invents
an author nor reports a dedicated missing-field error. -/
def h_from_attr (user : Option String) : Except PyError String :=
  match user with
  | none => Except.error PyError.attributeError
  | some login => Except.ok (h_from login)

/-- Modelled from the spec: the spec's Identity Generator contract
(section 4.1) says identity generation "fails with an InvalidIdentity
error" on invalid (non-string/empty) input; no such check or error class
exists in gien.py, so this definition follows the spec's words, for
comparison with the source's `h_message_id`. -/
inductive SpecIdError where
  | invalidIdentity
deriving Repr, DecidableEq

/-- Modelled from the spec: identity generation as the spec describes it,
rejecting an empty repository identity with an InvalidIdentity error and
otherwise producing the identifier the source produces. -/
def h_message_id_spec (repo : String) (issueid commentid : Nat) : Except SpecIdError String :=
  if repo = "" then Except.error SpecIdError.invalidIdentity
  else Except.ok (h_message_id repo issueid commentid)

/-- Repository whose full name decomposes as owner/short-name with a
slash-free owner, as every Github repository full name does. -/
def repoConsistent (r : Repo) : Prop :=
  ∃ owner : String, ('/' ∉ owner.data) ∧ r.full_name = owner ++ "/" ++ r.name

/-- Decimal read-back step: absorb one digit character. -/
def decimalStep (a : Nat) (c : Char) : Nat := a * 10 + (c.toNat - 48)

/-- Decimal value read back from a character list. -/
def decimalValue (l : List Char) : Nat := l.foldl decimalStep 0

/-- Decimal character block of `Nat.repr`, the embedding of Python
integer formatting. -/
def natChars (n : Nat) : List Char := (Nat.repr n).data

/-- Spec-shaped bracket decoration: one " [<label>]" suffix per label. -/
def label_suffix : List Label → String
  | [] => ""
  | l :: ls => " [" ++ l.name ++ "]" ++ label_suffix ls

/-- Spec-shaped decorated subject: title, label suffixes in label order,
then " [CLOSED]" exactly when the issue carries a closed timestamp. -/
def decorated_subject (i : Issue) : String :=
  i.title ++ label_suffix i.labels ++ (if i.closed_at.isSome then " [CLOSED]" else "")

/-- Reply message built for a discovered (directory, file name) page pair. -/
def wiki_reply_of (hh : String → String) (md : Markdown) (repo : Repo) (now : String)
    (contents : String → String) (p : String × String) : MimeMsg :=
  wiki_reply_msg hh md repo now contents p.1 p.2

/-- Spec-shaped wiki thread: the first discovered page as root, every
further page as a reply. -/
def wiki_msgs_of_pages (hh : String → String) (md : Markdown) (repo : Repo) (now : String)
    (contents : String → String) : List (String × String) → List MimeMsg
  | [] => []
  | p :: ps => wiki_root_msg hh md repo now contents p.1 p.2
      :: ps.map (wiki_reply_of hh md repo now contents)

/-! ### Generic helper lemmas -/

/-- Folding with per-element singleton appends is the initial accumulator
followed by the mapped list. -/
theorem foldl_append_singleton {α β : Type} (f : β → α) (l : List β) :
    ∀ init : List α, l.foldl (fun t b => t ++ [f b]) init = init ++ l.map f := by
  induction l with
  | nil => intro init; simp
  | cons b t ih => intro init; simp [ih (init ++ [f b])]

/-- Congruence for filterMap over the members of a fixed list. -/
theorem filterMap_congr_of_mem {α β : Type} (l : List α) (f g : α → Option β)
    (h : ∀ a ∈ l, f a = g a) : l.filterMap f = l.filterMap g := by
  induction l with
  | nil => rfl
  | cons a t ih =>
    rw [List.filterMap_cons, List.filterMap_cons, h a (List.mem_cons_self a t),
      ih (fun b hb => h b (List.mem_cons_of_mem a hb))]

/-- Splitting a concatenation at a separator character that occurs in
neither left part determines both parts. -/
theorem append_cons_inj {c : Char} (l1 : List Char) :
    ∀ (l2 r1 r2 : List Char), c ∉ l1 → c ∉ l2 →
      l1 ++ c :: r1 = l2 ++ c :: r2 → l1 = l2 ∧ r1 = r2 := by
  induction l1 with
  | nil =>
    intro l2 r1 r2 h1 h2 h
    cases l2 with
    | nil => simpa using h
    | cons y u =>
      simp only [List.nil_append, List.cons_append, List.cons.injEq] at h
      exact absurd (by simp [h.1]) h2
  | cons x t ih =>
    intro l2 r1 r2 h1 h2 h
    cases l2 with
    | nil =>
      simp only [List.nil_append, List.cons_append, List.cons.injEq] at h
      exact absurd (by simp [h.1]) h1
    | cons y u =>
      simp only [List.cons_append, List.cons.injEq] at h
      obtain ⟨he, hu⟩ := h
      have h1' : c ∉ t := fun hm => h1 (List.mem_cons_of_mem _ hm)
      have h2' : c ∉ u := fun hm => h2 (List.mem_cons_of_mem _ hm)
      obtain ⟨ha, hb⟩ := ih u r1 r2 h1' h2' hu
      exact ⟨by rw [he, ha], hb⟩

/-- Character list of the one-character string used as path separator. -/
theorem slash_data : "/".data = ['/'] := rfl

/-! ### Decimal representation: characterization of Nat.toDigitsCore -/

/-- Digit characters decode to their digit value. -/
theorem digitChar_toNat (m : Nat) (h : m < 10) : (Nat.digitChar m).toNat = 48 + m := by
  interval_cases m <;> decide

/-- Digit characters are never the path separator. -/
theorem digitChar_ne_slash (m : Nat) (h : m < 10) : Nat.digitChar m ≠ '/' := by
  interval_cases m <;> decide

/-- Characterization of `Nat.toDigitsCore` at base 10, under sufficient
fuel: the output is a block of digit characters (decoding back to the
input value) prepended to the accumulator. -/
theorem toDigitsCore_characterization (fuel : Nat) :
    ∀ (n : Nat), n < 10 ^ fuel → ∀ (acc : List Char),
      ∃ ds : List Char,
        Nat.toDigitsCore 10 fuel n acc = ds ++ acc ∧
        (∀ v : Nat, ds.foldl decimalStep v = v * 10 ^ ds.length + n) ∧
        (∀ c ∈ ds, ∃ m : Nat, m < 10 ∧ c = Nat.digitChar m) := by
  induction fuel with
  | zero =>
    intro n h acc
    refine ⟨[], by simp [Nat.toDigitsCore], ?_, by simp⟩
    intro v
    simp at h ⊢
    omega
  | succ fuel ih =>
    intro n h acc
    by_cases hq : n / 10 = 0
    · refine ⟨[(n % 10).digitChar], by simp [Nat.toDigitsCore, hq], ?_, ?_⟩
      · intro v
        simp only [List.foldl, decimalStep,
          digitChar_toNat (n % 10) (Nat.mod_lt n (by norm_num)), List.length_singleton, pow_one]
        omega
      · intro c hc
        simp at hc
        exact ⟨n % 10, Nat.mod_lt _ (by omega), hc⟩
    · have hq' : n / 10 < 10 ^ fuel := by
        rw [Nat.div_lt_iff_lt_mul (by norm_num)]
        calc n < 10 ^ (fuel + 1) := h
          _ = 10 ^ fuel * 10 := by ring
      obtain ⟨ds, hds, hval, hchars⟩ := ih (n / 10) hq' ((n % 10).digitChar :: acc)
      refine ⟨ds ++ [(n % 10).digitChar], ?_, ?_, ?_⟩
      · have hstep : Nat.toDigitsCore 10 (fuel + 1) n acc
            = Nat.toDigitsCore 10 fuel (n / 10) ((n % 10).digitChar :: acc) := by
          simp [Nat.toDigitsCore, hq]
        rw [hstep, hds]
        simp
      · intro v
        rw [List.foldl_append, hval v]
        simp only [List.foldl, decimalStep,
          digitChar_toNat (n % 10) (Nat.mod_lt _ (by omega)), List.length_append,
          List.length_singleton, pow_succ]
        rw [← mul_assoc]
        omega
      · intro c hc
        rcases List.mem_append.mp hc with h1 | h2
        · exact hchars c h1
        · simp at h2
          exact ⟨n % 10, Nat.mod_lt _ (by omega), h2⟩

/-- The decimal rendering decodes back to its value, and consists of
digit characters only. -/
theorem natChars_facts (n : Nat) :
    decimalValue (natChars n) = n ∧ ∀ c ∈ natChars n, ∃ m : Nat, m < 10 ∧ c = Nat.digitChar m := by
  have hlt : n < 10 ^ (n + 1) := by
    calc n < 2 ^ n := Nat.lt_two_pow n
      _ ≤ 10 ^ n := Nat.pow_le_pow_left (by norm_num) n
      _ ≤ 10 ^ (n + 1) := Nat.pow_le_pow_right (by norm_num) (Nat.le_succ n)
  obtain ⟨ds, hds, hval, hchars⟩ := toDigitsCore_characterization (n + 1) n hlt []
  have he : natChars n = ds := by
    have h0 : natChars n = Nat.toDigitsCore 10 (n + 1) n [] := rfl
    rw [h0, hds, List.append_nil]
  rw [he]
  refine ⟨?_, hchars⟩
  rw [decimalValue, hval 0]
  simp

/-- Distinct numbers have distinct decimal renderings. -/
theorem natChars_injective {a b : Nat} (h : natChars a = natChars b) : a = b := by
  have ha := (natChars_facts a).1
  have hb := (natChars_facts b).1
  rw [h] at ha
  omega

/-- The decimal rendering never contains the path separator. -/
theorem natChars_no_slash (n : Nat) : '/' ∉ natChars n := by
  intro hmem
  obtain ⟨m, hm, he⟩ := (natChars_facts n).2 _ hmem
  exact digitChar_ne_slash m hm he.symm

/-- Character-level decomposition of the issue message identifier. -/
theorem h_message_id_data (repo : String) (i c : Nat) :
    (h_message_id repo i c).data
      = ("<" ++ repo ++ "/issues/").data
          ++ (natChars i ++ '/' :: (natChars c ++ "@github.com>".data)) := by
  simp only [h_message_id, String.data_append, natChars, List.append_assoc,
    List.singleton_append, List.cons_append, List.nil_append]

/-- Within one repository, the issue message identifier determines the
issue id and the comment id: identifiers of distinct (issue, comment)
pairs never collide. -/
theorem h_message_id_inj (repo : String) (i1 c1 i2 c2 : Nat)
    (h : h_message_id repo i1 c1 = h_message_id repo i2 c2) : i1 = i2 ∧ c1 = c2 := by
  have hd := congrArg String.data h
  rw [h_message_id_data, h_message_id_data] at hd
  have hd2 := List.append_cancel_left hd
  obtain ⟨hi, hc⟩ :=
    append_cons_inj (natChars i1) (natChars i2) _ _ (natChars_no_slash i1) (natChars_no_slash i2) hd2
  have hc2 := List.append_cancel_right hc
  exact ⟨natChars_injective hi, natChars_injective hc2⟩

/-- Repositories with the same full name have the same short name, as the
full name is owner/short-name with a slash-free owner. -/
theorem repo_name_of_full_name {r r' : Repo} (hr : repoConsistent r) (hr' : repoConsistent r')
    (h : r.full_name = r'.full_name) : r.name = r'.name := by
  obtain ⟨o1, ho1, he1⟩ := hr
  obtain ⟨o2, ho2, he2⟩ := hr'
  have hd : (o1 ++ "/" ++ r.name).data = (o2 ++ "/" ++ r'.name).data := by
    rw [← he1, ← he2, h]
  simp only [String.data_append, slash_data, List.append_assoc, List.singleton_append] at hd
  obtain ⟨-, hb⟩ := append_cons_inj o1.data o2.data _ _ ho1 ho2 hd
  exact String.ext hb

/-! ### Issue thread structure -/

/-- The issue thread fold is the root message followed by one reply per
comment, in comment order. -/
theorem make_thread_eq (md : Markdown) (opts : Options) (r : Repo) (o : IssueData) :
    make_thread md opts r o
      = issueRootMsg md opts r o :: o.comments.map (issueReplyMsg md opts r o) := by
  show o.comments.foldl (fun t comment => t ++ [issueReplyMsg md opts r o comment])
      [issueRootMsg md opts r o]
    = issueRootMsg md opts r o :: o.comments.map (issueReplyMsg md opts r o)
  rw [foldl_append_singleton (issueReplyMsg md opts r o) o.comments [issueRootMsg md opts r o]]
  rfl

/-- The label fold of `make_thread` appends exactly the bracket suffixes. -/
theorem foldl_label_suffix (ls : List Label) :
    ∀ s : String, ls.foldl (fun acc label => acc ++ " [" ++ label.name ++ "]") s
      = s ++ label_suffix ls := by
  induction ls with
  | nil => intro s; simp [label_suffix, String.append_empty]
  | cons l t ih =>
    intro s
    rw [List.foldl_cons, ih, label_suffix]
    simp [String.append_assoc]

/-- The common subject of `make_thread` is the decorated subject when
label decoration is on and the bare title otherwise. -/
theorem make_subject_eq (opts : Options) (i : Issue) :
    make_subject opts i = if opts.labels then decorated_subject i else i.title := by
  unfold make_subject decorated_subject
  cases hl : opts.labels with
  | false => simp
  | true =>
    simp only [if_true]
    rw [foldl_label_suffix i.labels i.title]
    cases hc : i.closed_at.isSome <;> simp [String.append_empty]

section WikiLemmas

variable (hh : String → String) (md : Markdown) (repo : Repo) (now : String)
  (contents : String → String)

theorem wiki_files_foldl_of_ne (dir : String) (files : List String) :
    ∀ thread : List MimeMsg, thread ≠ [] →
      files.foldl (wiki_file_step hh md repo now contents dir) thread
        = thread ++ ((files.filter (fun ff => str_endswith ff ".md")).map
            (fun ff => wiki_reply_msg hh md repo now contents dir ff)) := by
  induction files with
  | nil => intro t ht; simp
  | cons ff fs ih =>
    intro t ht
    rw [List.foldl_cons]
    by_cases hmd : str_endswith ff ".md"
    · have hlen : t.length > 0 := List.length_pos.mpr ht
      have hstep : wiki_file_step hh md repo now contents dir t ff
          = t ++ [wiki_reply_msg hh md repo now contents dir ff] := by
        simp [wiki_file_step, hmd, hlen]
      rw [hstep, ih (t ++ [wiki_reply_msg hh md repo now contents dir ff]) (by simp)]
      simp [List.filter_cons, hmd, List.append_assoc]
    · have hstep : wiki_file_step hh md repo now contents dir t ff = t := by
        simp [wiki_file_step, hmd]
      rw [hstep, ih t ht]
      simp [List.filter_cons, hmd]

theorem wiki_files_foldl_nil (dir : String) (files : List String) :
    files.foldl (wiki_file_step hh md repo now contents dir) []
      = wiki_msgs_of_pages hh md repo now contents
          ((files.filter (fun ff => str_endswith ff ".md")).map (fun ff => (dir, ff))) := by
  induction files with
  | nil => rfl
  | cons ff fs ih =>
    rw [List.foldl_cons]
    by_cases hmd : str_endswith ff ".md"
    · have hstep : wiki_file_step hh md repo now contents dir [] ff
          = [wiki_root_msg hh md repo now contents dir ff] := by
        simp [wiki_file_step, hmd]
      rw [hstep, wiki_files_foldl_of_ne hh md repo now contents dir fs
        [wiki_root_msg hh md repo now contents dir ff] (by simp)]
      simp [List.filter_cons, hmd, wiki_msgs_of_pages, wiki_reply_of, List.map_map,
        Function.comp]
    · have hstep : wiki_file_step hh md repo now contents dir [] ff = ([] : List MimeMsg) := by
        simp [wiki_file_step, hmd]
      rw [hstep, ih]
      simp [List.filter_cons, hmd]

theorem thread_wiki_foldl_char :
    ∀ (walk : List WalkEntry) (thread : List MimeMsg),
      walk.foldl (wiki_dir_step hh md repo now contents) thread
        = if thread.isEmpty
          then wiki_msgs_of_pages hh md repo now contents (wiki_md_pages walk)
          else thread ++ (wiki_md_pages walk).map (wiki_reply_of hh md repo now contents) := by
  intro walk
  induction walk with
  | nil =>
    intro t
    cases t <;> simp [wiki_md_pages, wiki_msgs_of_pages]
  | cons e rest ih =>
    intro t
    rw [List.foldl_cons]
    by_cases hgit : str_find_has e.dir ".git"
    · have hstep : wiki_dir_step hh md repo now contents t e = t := by
        simp [wiki_dir_step, hgit]
      have hpages : wiki_md_pages (e :: rest) = wiki_md_pages rest := by
        simp [wiki_md_pages, List.filter_cons, hgit]
      rw [hstep, ih t, hpages]
    · have hpages : wiki_md_pages (e :: rest)
          = (e.files.filter (fun ff => str_endswith ff ".md")).map (fun ff => (e.dir, ff))
            ++ wiki_md_pages rest := by
        simp [wiki_md_pages, List.filter_cons, hgit]
      have hstep : wiki_dir_step hh md repo now contents t e
          = e.files.foldl (wiki_file_step hh md repo now contents e.dir) t := by
        simp [wiki_dir_step, hgit]
      rw [hstep, hpages]
      cases t with
      | nil =>
        rw [wiki_files_foldl_nil hh md repo now contents e.dir e.files]
        cases hcase : (e.files.filter (fun ff => str_endswith ff ".md")).map
            (fun ff => (e.dir, ff)) with
        | nil =>
          rw [show wiki_msgs_of_pages hh md repo now contents [] = [] from rfl, ih []]
          simp
        | cons p ps =>
          rw [show wiki_msgs_of_pages hh md repo now contents (p :: ps)
              = wiki_root_msg hh md repo now contents p.1 p.2
                  :: ps.map (wiki_reply_of hh md repo now contents) from rfl, ih _]
          simp [wiki_msgs_of_pages, List.map_append]
      | cons m ms =>
        rw [wiki_files_foldl_of_ne hh md repo now contents e.dir e.files (m :: ms) (by simp),
          ih _]
        simp [List.append_assoc, List.map_append, wiki_reply_of]

end WikiLemmas

theorem lookup_poolResults {α β : Type} (fn : α → β) (inputs : List α) (order : List Nat)
    (i : Nat) (a : α) (ha : inputs[i]? = some a) (hi : i ∈ order) :
    (poolResults fn inputs order).lookup i = some (fn a) := by
  induction order with
  | nil => cases hi
  | cons j rest ih =>
    rw [poolResults, List.filterMap_cons]
    cases hj : inputs[j]? with
    | none =>
      have hmem : i ∈ rest := by
        rcases List.mem_cons.mp hi with h | h
        · subst h; rw [ha] at hj; cases hj
        · exact h
      simpa [hj, poolResults] using ih hmem
    | some b =>
      by_cases hij : i = j
      · have hab : a = b := by
          apply Option.some.inj
          rw [← ha, hij, hj]
        subst hab
        simp [hj, List.lookup, hij]
      · have hmem : i ∈ rest := by
          rcases List.mem_cons.mp hi with h | h
          · exact absurd h hij
          · exact h
        have hne : (i == j) = false := by simp [hij]
        simpa [hj, List.lookup, hne, poolResults] using ih hmem

theorem range_filterMap_get {α β : Type} (fn : α → β) (inputs : List α) :
    (List.range inputs.length).filterMap (fun i => inputs[i]?.map (fun a => fn a))
      = inputs.map fn := by
  induction inputs with
  | nil => rfl
  | cons a as ih =>
    rw [List.length_cons, List.range_succ_eq_map, List.filterMap_cons, List.filterMap_map]
    simp only [List.getElem?_cons_zero, Option.map_some, Function.comp_def,
      List.getElem?_cons_succ]
    rw [List.map_cons]
    exact congrArg (fn a :: .) ih

theorem executor_map_eq_map {α β : Type} (fn : α → β) (inputs : List α) (order : List Nat)
    (hcover : ∀ i < inputs.length, i ∈ order) :
    executor_map fn inputs order = inputs.map fn := by
  have hcongr : (List.range inputs.length).filterMap
        (fun i => (poolResults fn inputs order).lookup i)
      = (List.range inputs.length).filterMap (fun i => inputs[i]?.map (fun a => fn a)) := by
    apply filterMap_congr_of_mem
    intro i hi
    have hlt := List.mem_range.mp hi
    obtain ha : inputs[i]? = some (inputs[i]) := List.getElem?_eq_getElem hlt
    rw [ha, lookup_poolResults fn inputs order i (inputs[i]) ha (hcover i hlt)]
    rfl
  rw [executor_map, hcongr, range_filterMap_get]

/-! ### Shared shape lemmas for the claim theorems -/

theorem thread_wiki_shape (hh : String → String) (md : Markdown) (repo : Repo) (now : String)
    (walk : List WalkEntry) (contents : String → String) :
    thread_wiki hh md repo now walk contents
      = wiki_msgs_of_pages hh md repo now contents (wiki_md_pages walk) := by
  rw [thread_wiki, thread_wiki_foldl_char]
  simp

theorem wiki_msgs_of_pages_length (hh : String → String) (md : Markdown) (repo : Repo)
    (now : String) (contents : String → String) (ps : List (String × String)) :
    (wiki_msgs_of_pages hh md repo now contents ps).length = ps.length := by
  cases ps <;> simp [wiki_msgs_of_pages]

theorem wiki_md_pages_filter_git (walk : List WalkEntry) :
    wiki_md_pages (walk.filter (fun e => !(str_find_has e.dir ".git"))) = wiki_md_pages walk := by
  rw [wiki_md_pages, wiki_md_pages, List.filter_filter]
  simp

/-! ### Claim theorems -/

/-- C1: for every issue with k comments, `make_thread` returns exactly
k + 1 messages: the root message built from the issue first, then one
reply message per comment, in the order of the input comment sequence. -/
theorem C1_issue_thread_shape (md : Markdown) (opts : Options) (r : Repo) (o : IssueData) :
    (make_thread md opts r o).length = o.comments.length + 1 ∧
    make_thread md opts r o
      = issueRootMsg md opts r o :: o.comments.map (issueReplyMsg md opts r o) := by
  refine ⟨?_, make_thread_eq md opts r o⟩
  rw [make_thread_eq md opts r o]
  simp

/-- C2: every reply message of an issue thread carries In-Reply-To and
References headers equal to the root message's Message-ID (the identifier
built with comment id 0), identical across all replies, while the root
message carries neither header. -/
theorem C2_reply_linkage (md : Markdown) (opts : Options) (r : Repo) (o : IssueData) :
    (∀ comment : Comment,
        getHeader (issueReplyMsg md opts r o comment) "In-Reply-To"
            = some (h_message_id r.full_name o.issue.id 0)
        ∧ getHeader (issueReplyMsg md opts r o comment) "References"
            = some (h_message_id r.full_name o.issue.id 0))
    ∧ getHeader (issueRootMsg md opts r o) "Message-ID"
        = some (h_message_id r.full_name o.issue.id 0)
    ∧ getHeader (issueRootMsg md opts r o) "In-Reply-To" = none
    ∧ getHeader (issueRootMsg md opts r o) "References" = none
    ∧ make_thread md opts r o
        = issueRootMsg md opts r o :: o.comments.map (issueReplyMsg md opts r o) :=
  ⟨fun _ => ⟨rfl, rfl⟩, rfl, rfl, rfl, make_thread_eq md opts r o⟩

/-- C5: with label decoration enabled the root subject is the title
followed by one bracketed suffix per label in label order and a
" [CLOSED]" suffix exactly when the issue has a closed timestamp; every
reply subject is the same string prefixed with "Re: "; with decoration
disabled the undecorated title is used. -/
theorem C5_subject_decoration (md : Markdown) (opts : Options) (r : Repo) (o : IssueData) :
    getHeader (issueRootMsg md opts r o) "Subject"
        = some (if opts.labels then decorated_subject o.issue else o.issue.title)
    ∧ (∀ comment : Comment,
        getHeader (issueReplyMsg md opts r o comment) "Subject"
          = some ("Re: " ++ (if opts.labels then decorated_subject o.issue else o.issue.title)))
    ∧ make_thread md opts r o
        = issueRootMsg md opts r o :: o.comments.map (issueReplyMsg md opts r o) := by
  have hs : getHeader (issueRootMsg md opts r o) "Subject"
      = some (make_subject opts o.issue) := rfl
  have hr : ∀ comment : Comment, getHeader (issueReplyMsg md opts r o comment) "Subject"
      = some ("Re: " ++ make_subject opts o.issue) := fun _ => rfl
  refine ⟨?_, ?_, make_thread_eq md opts r o⟩
  · rw [hs, make_subject_eq]
  · intro comment
    rw [hr comment, make_subject_eq]

/-- C3: issue/comment message identifiers are a deterministic function of
(repository full name, issue id, comment id), and identifiers of distinct
(issue, comment) pairs within one repository never collide; the wiki
message identifiers are determined by the repository full name (together
with the walked page path for non-root pages), since the short name of a
consistently named repository is determined by its full name. -/
theorem C3_identifier_determinism :
    (∀ (repo : String) (i1 c1 i2 c2 : Nat),
        h_message_id repo i1 c1 = h_message_id repo i2 c2 → i1 = i2 ∧ c1 = c2)
    ∧ (∀ (hh : String → String) (r r' : Repo) (path : String),
        repoConsistent r → repoConsistent r' → r.full_name = r'.full_name →
          wiki_root_msgid hh r = wiki_root_msgid hh r'
          ∧ wiki_reply_msgid hh r path = wiki_reply_msgid hh r' path) := by
  constructor
  · exact fun repo i1 c1 i2 c2 h => h_message_id_inj repo i1 c1 i2 c2 h
  · intro hh r r' path hr hr' hfull
    have hname := repo_name_of_full_name hr hr' hfull
    constructor
    · rw [wiki_root_msgid, wiki_root_msgid, hfull]
    · rw [wiki_reply_msgid, wiki_reply_msgid, hname]

/-- C3 witness: the theorem applied at a concrete repository, issue and
comment pair, and at a concrete consistent repository record. -/
theorem C3_identifier_determinism_witness :
    ((7 : Nat) = 7 ∧ (5 : Nat) = 5)
    ∧ (wiki_root_msgid (fun s => s) ⟨"octocat/hello", "hello"⟩
        = wiki_root_msgid (fun s => s) ⟨"octocat/hello", "hello"⟩
      ∧ wiki_reply_msgid (fun s => s) ⟨"octocat/hello", "hello"⟩ "/tmp/x/Home.md"
        = wiki_reply_msgid (fun s => s) ⟨"octocat/hello", "hello"⟩ "/tmp/x/Home.md") :=
  ⟨C3_identifier_determinism.1 "octocat/hello" 7 5 7 5 rfl,
   C3_identifier_determinism.2 (fun s => s) ⟨"octocat/hello", "hello"⟩
     ⟨"octocat/hello", "hello"⟩ "/tmp/x/Home.md"
     ⟨"octocat", by decide, rfl⟩ ⟨"octocat", by decide, rfl⟩ rfl⟩

/-- C4 counterexample: on a body whose markdown conversion fails, the
message returned by `render_message` does not contain the plain-text
rendering of the body — its part list is empty, because the plain-text
attach is inside the same try block, after the failing conversion. -/
theorem C4_plain_text_lost_counterexample :
    ((fun _ => none : Markdown) "- item" = none)
    ∧ (render_message (fun _ => none) "- item" [("Subject", "s")]).parts = []
    ∧ ("plain", "- item") ∉ (render_message (fun _ => none) "- item" [("Subject", "s")]).parts := by
  decide

/-- C4 amended: when markdown conversion of the body fails, the renderer
still returns a message (no exception escapes) carrying all its headers,
but both body parts — hypertext and plain text alike — are omitted. -/
theorem C4_render_failure_keeps_headers_only (md : Markdown) (body : String)
    (kwargs : List (String × String)) (h : md body = none) :
    render_message md body kwargs
      = { headers := kwargs.map (fun kv => (replace_underscores kv.fst, kv.snd)),
          parts := [] } := by
  simp [render_message, h]

/-- C4 witness: the amended theorem at a concrete failing conversion. -/
theorem C4_render_failure_witness :
    render_message (fun _ => none) "- item" [("Subject", "s")]
      = { headers := [("Subject", "s")].map (fun kv => (replace_underscores kv.fst, kv.snd)),
          parts := [] } :=
  C4_render_failure_keeps_headers_only (fun _ => none) "- item" [("Subject", "s")] rfl

/-- C6: the wiki thread builder returns exactly one message per
discovered ".md" file in walk order (all other files skipped): the first
such page is the single root, with Subject "[WIKI] <name>" and no reply
headers, and every later page is a reply whose In-Reply-To and References
both equal the root identifier (which is the root's Message-ID). -/
theorem C6_wiki_thread_shape (hh : String → String) (md : Markdown) (repo : Repo)
    (now : String) (walk : List WalkEntry) (contents : String → String) :
    thread_wiki hh md repo now walk contents
        = wiki_msgs_of_pages hh md repo now contents (wiki_md_pages walk)
    ∧ (thread_wiki hh md repo now walk contents).length = (wiki_md_pages walk).length
    ∧ (∀ dir ff : String,
        getHeader (wiki_root_msg hh md repo now contents dir ff) "Subject"
            = some ("[WIKI] " ++ str_dropRight ff 3)
        ∧ getHeader (wiki_root_msg hh md repo now contents dir ff) "Message-ID"
            = some (wiki_root_msgid hh repo)
        ∧ getHeader (wiki_root_msg hh md repo now contents dir ff) "In-Reply-To" = none
        ∧ getHeader (wiki_root_msg hh md repo now contents dir ff) "References" = none)
    ∧ (∀ dir ff : String,
        getHeader (wiki_reply_msg hh md repo now contents dir ff) "In-Reply-To"
            = some (wiki_root_msgid hh repo)
        ∧ getHeader (wiki_reply_msg hh md repo now contents dir ff) "References"
            = some (wiki_root_msgid hh repo)
        ∧ getHeader (wiki_reply_msg hh md repo now contents dir ff) "Subject"
            = some ("[WIKI] " ++ str_dropRight ff 3)) := by
  refine ⟨thread_wiki_shape hh md repo now walk contents, ?_,
    fun dir ff => ⟨rfl, rfl, rfl, rfl⟩, fun dir ff => ⟨rfl, rfl, rfl⟩⟩
  rw [thread_wiki_shape hh md repo now walk contents]
  exact wiki_msgs_of_pages_length hh md repo now contents (wiki_md_pages walk)

/-- C7: the archived message sequence of the issue phase is independent
of the completion order of the worker pool (hence of the worker count,
which only constrains which completion orders can occur): for any two
completion schedules covering all submitted indices, the archive writer
appends the same messages in the same input issue order, namely the
per-issue threads flattened in input order. -/
theorem C7_worker_order_independence (md : Markdown) (opts : Options) (r : Repo)
    (data : List IssueData) (order1 order2 : List Nat)
    (h1 : ∀ i < data.length, i ∈ order1) (h2 : ∀ i < data.length, i ∈ order2) :
    archive_issue_messages md opts r data order1 = archive_issue_messages md opts r data order2
    ∧ archive_issue_messages md opts r data order1
        = (data.map (make_thread md opts r)).flatten := by
  have e1 := executor_map_eq_map (make_thread md opts r) data order1 h1
  have e2 := executor_map_eq_map (make_thread md opts r) data order2 h2
  rw [archive_issue_messages, archive_issue_messages, e1, e2]
  exact ⟨rfl, rfl⟩

/-- C7 witness: two issues built under completion order 0-then-1 and
under completion order 1-then-0 yield the same archived sequence. -/
theorem C7_worker_order_independence_witness :
    archive_issue_messages (fun _ => none)
        ⟨some "u", some "p", "acme/widgets", "all", "output.mbox", true, false, true, 2⟩
        ⟨"acme/widgets", "widgets"⟩
        [⟨⟨1, "A", "b", 0, "alice", none, []⟩, [⟨5, "c", 1, "bob"⟩]⟩,
         ⟨⟨2, "B", "b2", 2, "carol", some 3, [⟨"bug"⟩]⟩, []⟩] [0, 1]
      = archive_issue_messages (fun _ => none)
        ⟨some "u", some "p", "acme/widgets", "all", "output.mbox", true, false, true, 2⟩
        ⟨"acme/widgets", "widgets"⟩
        [⟨⟨1, "A", "b", 0, "alice", none, []⟩, [⟨5, "c", 1, "bob"⟩]⟩,
         ⟨⟨2, "B", "b2", 2, "carol", some 3, [⟨"bug"⟩]⟩, []⟩] [1, 0] :=
  (C7_worker_order_independence (fun _ => none)
    ⟨some "u", some "p", "acme/widgets", "all", "output.mbox", true, false, true, 2⟩
    ⟨"acme/widgets", "widgets"⟩
    [⟨⟨1, "A", "b", 0, "alice", none, []⟩, [⟨5, "c", 1, "bob"⟩]⟩,
     ⟨⟨2, "B", "b2", 2, "carol", some 3, [⟨"bug"⟩]⟩, []⟩]
    [0, 1] [1, 0] (by decide) (by decide)).1

/-- C8 counterexample: a command line with --user and --password but
without --repository does not terminate with a usage error — argparse
substitutes the default repository "2ion/gien", the check in
`get_options` passes, and the run proceeds to the network fetch and the
store, exiting 0. -/
theorem C8_missing_repository_counterexample :
    (⟨some "u", some "p", none, none, none, false, false, true, none⟩ : CmdLine).repository = none
    ∧ main_trace ⟨some "u", some "p", none, none, none, false, false, true, none⟩
        = ([Event.networkFetch, Event.storeOpen, Event.storeFlush], 0) :=
  ⟨rfl, rfl⟩

/-- C8 amended: if --user or --password is missing or empty, or
--repository is explicitly given as the empty string, the run dies with
a usage error and exit status 1 before any network call and before the
output store is touched (empty effect trace); a merely absent
--repository, however, defaults to "2ion/gien" and does not terminate
the run. -/
theorem C8_usage_error_before_effects (c : CmdLine)
    (h : py_truthy c.user = false ∨ py_truthy c.password = false ∨ c.repository = some "") :
    main_trace c = ([], 1) := by
  rcases h with h | h | h <;> simp [main_trace, get_options, parse_args, h]

/-- C8 witness: the amended theorem at a command line missing --user. -/
theorem C8_usage_error_witness :
    main_trace ⟨none, some "p", some "acme/widgets", none, none, false, false, true, none⟩
      = ([], 1) :=
  C8_usage_error_before_effects
    ⟨none, some "p", some "acme/widgets", none, none, false, false, true, none⟩ (Or.inl rfl)

/-- C9 counterexample: identity generation does not fail on invalid
(empty) input — `h_message_id` is a total formatting function and
returns an ordinary identifier even for the empty repository name,
whereas the spec-modelled variant reports an InvalidIdentity error. -/
theorem C9_total_identity_counterexample :
    h_message_id "" 1 2 = "</issues/1/2@github.com>"
    ∧ h_message_id_spec "" 1 2 = Except.error SpecIdError.invalidIdentity :=
  ⟨rfl, rfl⟩

/-- C9 amended: header composition fails only through a generic attribute
error — raised exactly when the author handle is missing, never a
dedicated MissingField error (no such class exists in the program) — and
never invents or collapses author values; identity generation has no
failure mode at all: it returns a nonempty identifier for every input,
including the empty repository name. -/
theorem C9_error_model :
    (∀ user : Option String,
        (h_from_attr user = Except.error PyError.attributeError) ↔ user = none)
    ∧ (∀ a b : String, h_from_attr (some a) = h_from_attr (some b) → a = b)
    ∧ (∀ (repo : String) (i c : Nat), h_message_id repo i c ≠ "") := by
  refine ⟨?_, ?_, ?_⟩
  · intro user
    cases user with
    | none => simp [h_from_attr]
    | some s => simp [h_from_attr]
  · intro a b h
    have h2 : h_from a = h_from b := by simpa [h_from_attr] using h
    have hd := congrArg String.data h2
    simp only [h_from, String.data_append, List.append_assoc] at hd
    have hlen : a.data.length = b.data.length := by
      have hl := congrArg List.length hd
      simp only [List.length_append] at hl
      omega
    exact String.ext (List.append_inj hd hlen).1
  · intro repo i c h
    have hd : (h_message_id repo i c).data = ([] : List Char) := by rw [h]
    rw [h_message_id_data] at hd
    simp at hd

/-- C9 witness: the amended theorem applied at a present author handle
and at the empty repository name. -/
theorem C9_error_model_witness :
    "alice" = "alice" ∧ h_message_id "" 1 2 ≠ "" :=
  ⟨C9_error_model.2.1 "alice" "alice" rfl, C9_error_model.2.2 "" 1 2⟩

/-- C10: the wiki walk skips every directory whose path contains ".git"
as a substring (removing such directories from the walk changes nothing),
and the filter inspects only directory paths, never file names: in a
clean directory every file ending in ".md" yields a message, whatever
its name contains. -/
theorem C10_git_dir_filter (hh : String → String) (md : Markdown) (repo : Repo)
    (now : String) (contents : String → String) :
    (∀ walk : List WalkEntry,
        thread_wiki hh md repo now walk contents
          = thread_wiki hh md repo now
              (walk.filter (fun e => !(str_find_has e.dir ".git"))) contents)
    ∧ (∀ (d : String) (fs : List String), str_find_has d ".git" = false →
        (thread_wiki hh md repo now [⟨d, fs⟩] contents).length
          = (fs.filter (fun ff => str_endswith ff ".md")).length) := by
  constructor
  · intro walk
    rw [thread_wiki_shape, thread_wiki_shape, wiki_md_pages_filter_git]
  · intro d fs hclean
    rw [thread_wiki_shape, wiki_msgs_of_pages_length]
    simp [wiki_md_pages, List.filter_cons, hclean]

/-- C10 witness: a clean directory whose files include "notes.git.md"
(archived: only the ".md" suffix is inspected) and a walk containing the
directory "w/my.github" (skipped: its path contains ".git"). -/
theorem C10_git_dir_filter_witness :
    (thread_wiki (fun s => s) (fun _ => none) ⟨"acme/widgets", "widgets"⟩ "now"
        [⟨"w", ["notes.git.md", "Home.md", "logo.png"]⟩] (fun _ => "body")).length
      = (["notes.git.md", "Home.md", "logo.png"].filter
          (fun ff => str_endswith ff ".md")).length
    ∧ thread_wiki (fun s => s) (fun _ => none) ⟨"acme/widgets", "widgets"⟩ "now"
        [⟨"w", ["Home.md"]⟩, ⟨"w/my.github", ["Page.md"]⟩] (fun _ => "body")
      = thread_wiki (fun s => s) (fun _ => none) ⟨"acme/widgets", "widgets"⟩ "now"
          (([⟨"w", ["Home.md"]⟩, ⟨"w/my.github", ["Page.md"]⟩] : List WalkEntry).filter
            (fun e => !(str_find_has e.dir ".git"))) (fun _ => "body") :=
  ⟨(C10_git_dir_filter (fun s => s) (fun _ => none) ⟨"acme/widgets", "widgets"⟩ "now"
      (fun _ => "body")).2 "w" ["notes.git.md", "Home.md", "logo.png"] (by decide),
   (C10_git_dir_filter (fun s => s) (fun _ => none) ⟨"acme/widgets", "widgets"⟩ "now"
      (fun _ => "body")).1 [⟨"w", ["Home.md"]⟩, ⟨"w/my.github", ["Page.md"]⟩]⟩
